import Mathlib

/-!
Shallow embedding of the Resume-Parser screening pipeline
(src/parsers/ResumeParser.ts, src/extractors/FeatureExtractor.js,
src/evaluators/ResumeEvaluator.js, src/R1Agent.ts) in Lean 4, with
theorems settling the frozen claims about the natural-language spec.

JS numbers are modelled as Int (integer arithmetic throughout the code),
JS fractions (confidence score, skill percentage before rounding) as Rat,
and JS strings as Lean String (toLowerCase as a character-wise ASCII case
map, which the code's fixed vocabularies stay within).
-/

/-- Model of JavaScript String.prototype.toLowerCase restricted to the ASCII
case mapping (the character-wise form of String.toLower). -/
def jsToLower (s : String) : String := String.mk (s.data.map Char.toLower)

/-- Model of the JavaScript substring test used as a character-list prefix
check: charsPre sub l is true when sub is an initial segment of l. -/
def charsPre : List Char → List Char → Bool
  | [], _ => true
  | _ :: _, [] => false
  | a :: as, b :: bs => a == b && charsPre as bs

/-- Model of JavaScript String.prototype.includes: sub occurs contiguously
somewhere in s. -/
def strContains (s sub : String) : Bool :=
  (List.range (s.data.length + 1)).any fun i => charsPre sub.data (s.data.drop i)

/-- Model of JavaScript Math.round: JS rounds half toward positive
infinity, which is the floor of q + 1/2. The floor is written as a single
integer quotient, (2·num + den) / (2·den), so that concrete inputs evaluate
by kernel reduction; jsRound_eq below restates it as the floor of q + 1/2. -/
def jsRound (q : ℚ) : ℤ := ⌊Rat.divInt (2 * q.num + (q.den : ℤ)) (2 * (q.den : ℤ))⌋

/-- Education record of the canonical profile (src/types: Education). -/
structure Education where
  degree : String
  institution : String
  graduationYear : Option ℤ := none
  field : Option String := none
  gpa : Option ℚ := none

/-- Work-experience record of the canonical profile (src/types:
WorkExperience); duration is in months. -/
structure WorkExperience where
  title : String
  company : String
  startDate : String
  endDate : Option String := none
  duration : ℤ
  description : Option String := none
  technologies : List String := []

/-- Skill record of the canonical profile (src/types: Skill). -/
structure Skill where
  name : String
  category : String := "technical"
  proficiency : String := "intermediate"
  yearsOfExperience : Option ℤ := none

/-- Certification record of the canonical profile (src/types:
Certification). -/
structure Certification where
  name : String
  issuingOrganization : String := "Unknown"
  issueDate : Option String := none
  expiryDate : Option String := none
  credentialId : Option String := none

/-- Canonical candidate profile, the parser's output (src/types:
ParsedResume). -/
structure ParsedResume where
  fullName : String
  email : String
  phone : String
  education : List Education
  workExperience : List WorkExperience
  skills : List Skill
  certifications : List Certification
  rawText : Option String := none

/-- Education requirement of a job (src/types: JobRequirements.requiredEducation). -/
structure RequiredEducation where
  minimumDegree : String
  preferredFields : List String := []

/-- Job requirements supplied by the caller (src/types: JobRequirements). -/
structure JobRequirements where
  minimumYearsOfExperience : ℤ
  requiredSkills : List String
  preferredSkills : List String := []
  requiredEducation : RequiredEducation
  requiredCertifications : Option (List String) := none
  softSkills : Option (List String) := none

/-- Screening result returned to callers (src/types: ScreeningResult). -/
structure ScreeningResult where
  candidateProfile : ParsedResume
  screeningResult : String
  matchReasons : List String
  confidenceScore : ℚ
  missingRequirements : List String
  errorMessages : List String

/-- Features derived by FeatureExtractor.extractFeatures (src/types:
ExtractedFeatures). -/
structure ExtractedFeatures where
  hasRequiredSkills : Bool
  hasPreferredSkills : Bool
  meetsExperienceRequirement : Bool
  meetsEducationRequirement : Bool
  hasRequiredCertifications : Bool
  totalYearsExperience : ℤ
  skillMatchPercentage : ℤ
  educationLevel : String

/-- Shared loop body of determineEducationLevel: both FeatureExtractor and
ResumeEvaluator embed textually identical copies of this scan, carrying the
highest level name and its numeric rank through the education list. -/
def educationLevelFold : List Education → String → ℤ → String
  | [], highestLevel, _ => highestLevel
  | edu :: rest, highestLevel, highestLevelNum =>
    let degree := jsToLower edu.degree
    if strContains degree "phd" || strContains degree "doctorate" then
      if 5 > highestLevelNum then educationLevelFold rest "phd" 5
      else educationLevelFold rest highestLevel highestLevelNum
    else if strContains degree "master" || strContains degree "ms" || strContains degree "ma" then
      if 4 > highestLevelNum then educationLevelFold rest "master" 4
      else educationLevelFold rest highestLevel highestLevelNum
    else if strContains degree "bachelor" || strContains degree "bs" || strContains degree "ba" then
      if 3 > highestLevelNum then educationLevelFold rest "bachelor" 3
      else educationLevelFold rest highestLevel highestLevelNum
    else if strContains degree "associate" || strContains degree "aa" || strContains degree "as" then
      if 2 > highestLevelNum then educationLevelFold rest "associate" 2
      else educationLevelFold rest highestLevel highestLevelNum
    else educationLevelFold rest highestLevel highestLevelNum

/-- FeatureExtractor.checkRequiredSkills's fixed internal reference list. -/
def FeatureExtractor.requiredSkillsList : List String :=
  ["JavaScript", "Python", "Java", "React", "Node.js", "SQL",
   "Git", "HTML", "CSS", "TypeScript", "AWS", "Docker"]

/-- FeatureExtractor.checkRequiredSkills from the source. -/
def FeatureExtractor.checkRequiredSkills (skills : List Skill) : Bool :=
  let candidateSkillNames := skills.map fun skill => jsToLower skill.name
  FeatureExtractor.requiredSkillsList.any fun skill => candidateSkillNames.contains (jsToLower skill)

/-- FeatureExtractor.checkPreferredSkills's fixed internal reference list. -/
def FeatureExtractor.preferredSkillsList : List String :=
  ["Kubernetes", "MongoDB", "Redis", "GraphQL", "TypeScript",
   "Docker", "AWS", "Azure", "GCP", "CI/CD", "Microservices"]

/-- FeatureExtractor.checkPreferredSkills from the source. -/
def FeatureExtractor.checkPreferredSkills (skills : List Skill) : Bool :=
  let candidateSkillNames := skills.map fun skill => jsToLower skill.name
  FeatureExtractor.preferredSkillsList.any fun skill => candidateSkillNames.contains (jsToLower skill)

/-- FeatureExtractor.calculateTotalExperience from the source: total months
reduced over the list, divided by 12 and rounded with Math.round. -/
def FeatureExtractor.calculateTotalExperience (workExperience : List WorkExperience) : ℤ :=
  let totalMonths : ℤ := workExperience.foldl (fun total exp => total + exp.duration) 0
  jsRound (Rat.divInt totalMonths 12)

/-- FeatureExtractor.checkExperienceRequirement from the source (it compares
the rounded-years value against minimumYears * 12, as in the code). -/
def FeatureExtractor.checkExperienceRequirement (workExperience : List WorkExperience) : Bool :=
  let totalMonths := FeatureExtractor.calculateTotalExperience workExperience
  let minimumYears : ℤ := 3
  decide (totalMonths ≥ minimumYears * 12)

/-- FeatureExtractor.determineEducationLevel from the source. -/
def FeatureExtractor.determineEducationLevel (education : List Education) : String :=
  if education.length == 0 then "high_school"
  else educationLevelFold education "high_school" 1

/-- FeatureExtractor.checkEducationRequirement from the source. -/
def FeatureExtractor.checkEducationRequirement (education : List Education) : Bool :=
  let educationLevel := FeatureExtractor.determineEducationLevel education
  let levelOf : String → ℤ := fun degree =>
    if degree == "high_school" then 1
    else if degree == "associate" then 2
    else if degree == "bachelor" then 3
    else if degree == "master" then 4
    else if degree == "phd" then 5
    else 0
  decide (levelOf educationLevel ≥ levelOf "bachelor")

/-- FeatureExtractor.checkCertificationRequirement's fixed list. -/
def FeatureExtractor.requiredCertsList : List String :=
  ["AWS Certified", "Microsoft Certified", "Google Certified",
   "CISSP", "PMP", "Scrum Master"]

/-- FeatureExtractor.checkCertificationRequirement from the source:
vacuously true when the candidate has no certifications. -/
def FeatureExtractor.checkCertificationRequirement (certifications : List Certification) : Bool :=
  if certifications.length == 0 then true
  else
    let candidateCertNames := certifications.map fun cert => jsToLower cert.name
    FeatureExtractor.requiredCertsList.any fun cert =>
      candidateCertNames.any fun candidateCert => strContains candidateCert (jsToLower cert)

/-- FeatureExtractor.calculateSkillMatch's master vocabulary (32 entries as
written in the source, duplicates included). -/
def FeatureExtractor.allSkillsList : List String :=
  ["JavaScript", "Python", "Java", "C++", "React", "Angular", "Vue", "Node.js",
   "SQL", "MongoDB", "AWS", "Azure", "Docker", "Kubernetes", "Git", "Linux",
   "HTML", "CSS", "TypeScript", "PHP", "Ruby", "Go", "Rust", "Swift", "Kotlin",
   "Kubernetes", "Redis", "GraphQL", "CI/CD", "Microservices", "REST", "GraphQL"]

/-- FeatureExtractor.calculateSkillMatch from the source; the exact
rational (matched / total) * 100 is written as the single integer quotient
(matched * 100) / total so that it evaluates by kernel reduction. -/
def FeatureExtractor.calculateSkillMatch (skills : List Skill) : ℤ :=
  let candidateSkillNames := skills.map fun skill => jsToLower skill.name
  let matchedSkills := FeatureExtractor.allSkillsList.filter fun skill =>
    candidateSkillNames.contains (jsToLower skill)
  jsRound (Rat.divInt (matchedSkills.length * 100) FeatureExtractor.allSkillsList.length)

/-- FeatureExtractor.extractFeatures from the source. -/
def FeatureExtractor.extractFeatures (parsedResume : ParsedResume) : ExtractedFeatures :=
  { hasRequiredSkills := FeatureExtractor.checkRequiredSkills parsedResume.skills
    hasPreferredSkills := FeatureExtractor.checkPreferredSkills parsedResume.skills
    meetsExperienceRequirement := FeatureExtractor.checkExperienceRequirement parsedResume.workExperience
    meetsEducationRequirement := FeatureExtractor.checkEducationRequirement parsedResume.education
    hasRequiredCertifications := FeatureExtractor.checkCertificationRequirement parsedResume.certifications
    totalYearsExperience := FeatureExtractor.calculateTotalExperience parsedResume.workExperience
    skillMatchPercentage := FeatureExtractor.calculateSkillMatch parsedResume.skills
    educationLevel := FeatureExtractor.determineEducationLevel parsedResume.education }

/-- Skill-match result of ResumeEvaluator.analyzeSkillMatch. -/
structure SkillMatch where
  matched : List String
  percentage : ℤ

/-- Features built by ResumeEvaluator.extractEvaluationFeatures. -/
structure EvalFeatures where
  hasValidContact : Bool
  totalExperience : ℤ
  hasRelevantExperience : Bool
  skillMatch : SkillMatch
  hasRequiredSkills : Bool
  educationLevel : String
  hasRelevantEducation : Bool
  hasCertifications : Bool
  resumeCompleteness : ℤ
  candidateSkillNames : List String

/-- Per-category outcome used inside performEvaluation. -/
structure CatScore where
  pass : Bool
  score : ℕ

/-- Outcome record of ResumeEvaluator.performEvaluation. -/
structure EvalOutcome where
  pass : Bool
  confidence : ℚ
  reasons : List String
  missing : List String
  errors : List String

/-- ResumeEvaluator.hasValidContact from the source. -/
def ResumeEvaluator.hasValidContact (candidateData : ParsedResume) : Bool :=
  decide (0 < candidateData.email.length) && decide (0 < candidateData.phone.length)

/-- ResumeEvaluator.calculateTotalExperience from the source (textually the
same reduce-and-round as FeatureExtractor.calculateTotalExperience). -/
def ResumeEvaluator.calculateTotalExperience (workExperience : List WorkExperience) : ℤ :=
  let totalMonths : ℤ := workExperience.foldl (fun total exp => total + exp.duration) 0
  jsRound (Rat.divInt totalMonths 12)

/-- ResumeEvaluator.hasRelevantExperience's fixed keyword list. -/
def ResumeEvaluator.relevantKeywords : List String :=
  ["software", "developer", "engineer", "programmer", "coding",
   "web", "application", "system", "database", "frontend", "backend"]

/-- ResumeEvaluator.hasRelevantExperience from the source: some work
experience whose lowercased title or description contains a keyword. -/
def ResumeEvaluator.hasRelevantExperience (workExperience : List WorkExperience) : Bool :=
  workExperience.any fun exp =>
    let title := jsToLower exp.title
    let description := match exp.description with
      | some d => jsToLower d
      | none => ""
    ResumeEvaluator.relevantKeywords.any fun keyword =>
      strContains title keyword || strContains description keyword

/-- ResumeEvaluator.analyzeSkillMatch's master vocabulary (25 entries). -/
def ResumeEvaluator.allSkillsList : List String :=
  ["JavaScript", "Python", "Java", "C++", "React", "Angular", "Vue", "Node.js",
   "SQL", "MongoDB", "AWS", "Azure", "Docker", "Kubernetes", "Git", "Linux",
   "HTML", "CSS", "TypeScript", "PHP", "Ruby", "Go", "Rust", "Swift", "Kotlin"]

/-- ResumeEvaluator.analyzeSkillMatch from the source; the exact rational
(matched / total) * 100 is written as the single integer quotient
(matched * 100) / total so that it evaluates by kernel reduction. -/
def ResumeEvaluator.analyzeSkillMatch (skills : List Skill) : SkillMatch :=
  let candidateSkillNames := skills.map fun skill => jsToLower skill.name
  let matchedSkills := ResumeEvaluator.allSkillsList.filter fun skill =>
    candidateSkillNames.contains (jsToLower skill)
  { matched := matchedSkills
    percentage := jsRound (Rat.divInt (matchedSkills.length * 100) ResumeEvaluator.allSkillsList.length) }

/-- ResumeEvaluator.hasRequiredSkills's fixed internal common-skills list
(the same twelve entries as FeatureExtractor's copy). -/
def ResumeEvaluator.requiredSkillsList : List String :=
  ["JavaScript", "Python", "Java", "React", "Node.js", "SQL",
   "Git", "HTML", "CSS", "TypeScript", "AWS", "Docker"]

/-- ResumeEvaluator.hasRequiredSkills from the source: some entry of the
fixed internal list occurs among the candidate's lowercased skill names. -/
def ResumeEvaluator.hasRequiredSkills (skills : List Skill) : Bool :=
  let candidateSkillNames := skills.map fun skill => jsToLower skill.name
  ResumeEvaluator.requiredSkillsList.any fun skill => candidateSkillNames.contains (jsToLower skill)

/-- ResumeEvaluator.determineEducationLevel from the source. -/
def ResumeEvaluator.determineEducationLevel (education : List Education) : String :=
  if education.length == 0 then "high_school"
  else educationLevelFold education "high_school" 1

/-- ResumeEvaluator.hasRelevantEducation's fixed relevant-fields list. -/
def ResumeEvaluator.relevantFields : List String :=
  ["computer science", "software engineering", "information technology",
   "data science", "engineering", "mathematics", "physics"]

/-- ResumeEvaluator.hasRelevantEducation from the source. -/
def ResumeEvaluator.hasRelevantEducation (education : List Education) : Bool :=
  education.any fun edu =>
    let field := match edu.field with
      | some f => jsToLower f
      | none => ""
    ResumeEvaluator.relevantFields.any fun relevant => strContains field relevant

/-- ResumeEvaluator.calculateCompleteness from the source. -/
def ResumeEvaluator.calculateCompleteness (candidateData : ParsedResume) : ℤ :=
  let score : ℤ := 0
  let score := if candidateData.fullName != "Unknown" then score + 10 else score
  let score := if candidateData.email != "" then score + 5 else score
  let score := if candidateData.phone != "" then score + 5 else score
  let score := if 0 < candidateData.workExperience.length then score + 30 else score
  let score := if 0 < candidateData.education.length then score + 20 else score
  let score := if 0 < candidateData.skills.length then score + 20 else score
  let score := if 0 < candidateData.certifications.length then score + 10 else score
  min score 100

/-- ResumeEvaluator.extractEvaluationFeatures from the source. -/
def ResumeEvaluator.extractEvaluationFeatures (candidateData : ParsedResume) : EvalFeatures :=
  { hasValidContact := ResumeEvaluator.hasValidContact candidateData
    totalExperience := ResumeEvaluator.calculateTotalExperience candidateData.workExperience
    hasRelevantExperience := ResumeEvaluator.hasRelevantExperience candidateData.workExperience
    skillMatch := ResumeEvaluator.analyzeSkillMatch candidateData.skills
    hasRequiredSkills := ResumeEvaluator.hasRequiredSkills candidateData.skills
    educationLevel := ResumeEvaluator.determineEducationLevel candidateData.education
    hasRelevantEducation := ResumeEvaluator.hasRelevantEducation candidateData.education
    hasCertifications := decide (0 < candidateData.certifications.length)
    resumeCompleteness := ResumeEvaluator.calculateCompleteness candidateData
    candidateSkillNames := candidateData.skills.map fun skill => jsToLower skill.name }

/-- ResumeEvaluator.evaluateExperience from the source: 20 points for the
minimum-years condition plus 10 points for keyword relevance; the category
pass flag reflects the minimum-years condition alone. -/
def ResumeEvaluator.evaluateExperience (features : EvalFeatures) (requirements : JobRequirements) : CatScore :=
  let hasMinimumExperience : Bool := decide (features.totalExperience ≥ requirements.minimumYearsOfExperience)
  let hasRelevant := features.hasRelevantExperience
  let score : ℕ := 0
  let score := if hasMinimumExperience then score + 20 else score
  let score := if hasRelevant then score + 10 else score
  { pass := hasMinimumExperience, score := score }

/-- ResumeEvaluator.evaluateSkills from the source. -/
def ResumeEvaluator.evaluateSkills (features : EvalFeatures) (_requirements : JobRequirements) : CatScore :=
  let hasRequired := features.hasRequiredSkills
  let skillMatchPercentage := features.skillMatch.percentage
  let score : ℕ := 0
  let score := if hasRequired then score + 25 else score
  let score := if skillMatchPercentage ≥ 50 then score + 15 else score
  { pass := hasRequired, score := score }

/-- Level hierarchy lookup of ResumeEvaluator.evaluateEducation, with the
JavaScript fallback of 0 for a key outside the map. -/
def ResumeEvaluator.levelHierarchy (degree : String) : ℤ :=
  if degree == "high_school" then 1
  else if degree == "associate" then 2
  else if degree == "bachelor" then 3
  else if degree == "master" then 4
  else if degree == "phd" then 5
  else 0

/-- ResumeEvaluator.evaluateEducation from the source. -/
def ResumeEvaluator.evaluateEducation (features : EvalFeatures) (requirements : JobRequirements) : CatScore :=
  let requiredLevel := ResumeEvaluator.levelHierarchy requirements.requiredEducation.minimumDegree
  let candidateLevel := ResumeEvaluator.levelHierarchy features.educationLevel
  let meetsLevel : Bool := decide (candidateLevel ≥ requiredLevel)
  let score : ℕ := 0
  let score := if meetsLevel then score + 15 else score
  let score := if features.hasRelevantEducation then score + 5 else score
  { pass := meetsLevel, score := score }

/-- ResumeEvaluator.evaluateCertifications from the source: an empty or
absent required-certifications list passes with the full 10 points. -/
def ResumeEvaluator.evaluateCertifications (features : EvalFeatures) (requirements : JobRequirements) : CatScore :=
  let hasCertifications := features.hasCertifications
  match requirements.requiredCertifications with
  | none => { pass := true, score := 10 }
  | some l =>
    if l.length == 0 then { pass := true, score := 10 }
    else { pass := hasCertifications, score := if hasCertifications then 10 else 0 }

/-- ResumeEvaluator.performEvaluation from the source: four sequential
category evaluations accumulating points, reasons and missing-requirement
strings, then confidence = passScore / totalScore and the 0.7 threshold. -/
def ResumeEvaluator.performEvaluation (features : EvalFeatures) (requirements : JobRequirements) : EvalOutcome :=
  let experienceScore := ResumeEvaluator.evaluateExperience features requirements
  let reasonsExp := if experienceScore.pass
    then ["✓ " ++ toString features.totalExperience ++ " years of experience"] else []
  let missingExp := if experienceScore.pass then []
    else ["Requires " ++ toString requirements.minimumYearsOfExperience ++ "+ years experience"]
  let skillsScore := ResumeEvaluator.evaluateSkills features requirements
  let reasonsSkills := if skillsScore.pass then ["✓ Has required technical skills"] else []
  let missingSkillsMsg := if skillsScore.pass then []
    else
      let missingSkills := requirements.requiredSkills.filter fun skill =>
        !(features.candidateSkillNames.contains (jsToLower skill))
      ["Missing required skills: " ++ String.intercalate ", " missingSkills]
  let educationScore := ResumeEvaluator.evaluateEducation features requirements
  let reasonsEdu := if educationScore.pass then ["✓ Meets education requirements"] else []
  let missingEdu := if educationScore.pass then []
    else ["Requires " ++ requirements.requiredEducation.minimumDegree ++ " degree"]
  let certScore := ResumeEvaluator.evaluateCertifications features requirements
  let reasonsCert := if certScore.pass then ["✓ Has relevant certifications"] else []
  let missingCert := if certScore.pass then []
    else match requirements.requiredCertifications with
      | some l => if 0 < l.length then ["Missing required certifications"] else []
      | none => []
  let passScore : ℕ := experienceScore.score + skillsScore.score + educationScore.score + certScore.score
  let totalScore : ℕ := 30 + 40 + 20 + 10
  let confidence : ℚ := if 0 < totalScore then Rat.divInt (passScore : ℤ) (totalScore : ℤ) else 0
  let pass : Bool := decide (confidence ≥ Rat.divInt 7 10)
  { pass := pass
    confidence := confidence
    reasons := reasonsExp ++ reasonsSkills ++ reasonsEdu ++ reasonsCert
    missing := missingExp ++ missingSkillsMsg ++ missingEdu ++ missingCert
    errors := [] }

/-- ResumeEvaluator.evaluateAgainstCriteria from the source. -/
def ResumeEvaluator.evaluateAgainstCriteria (candidateData : ParsedResume) (jobRequirements : JobRequirements) : ScreeningResult :=
  let features := ResumeEvaluator.extractEvaluationFeatures candidateData
  let evaluation := ResumeEvaluator.performEvaluation features jobRequirements
  { candidateProfile := candidateData
    screeningResult := if evaluation.pass then "pass" else "fail"
    matchReasons := evaluation.reasons
    confidenceScore := evaluation.confidence
    missingRequirements := evaluation.missing
    errorMessages := evaluation.errors }

/-- Characters matched by the JavaScript regex class backslash-s, restricted
to its ASCII members (resume text stays within ASCII whitespace). -/
def jsIsSpace (c : Char) : Bool :=
  c == ' ' || c == '\t' || c == '\n' || c == '\r' || c == '\x0b' || c == '\x0c'

/-- Characters matched by the JavaScript regex class backslash-w. -/
def isWordChar (c : Char) : Bool := c.isAlphanum || c == '_'

/-- ASCII uppercase letter, the regex class A to Z without the i flag. -/
def isUpperAZ (c : Char) : Bool := 'A' ≤ c && c ≤ 'Z'

/-- ASCII lowercase letter, the regex class a to z without the i flag. -/
def isLowerAZ (c : Char) : Bool := 'a' ≤ c && c ≤ 'z'

/-- First replace of normalizeText, the global regex replacing every maximal
whitespace run with one space; the flag records whether the previous input
character was whitespace (so a run emits a single space). -/
def collapseWsAux : Bool → List Char → List Char
  | _, [] => []
  | prevSpace, c :: cs =>
    if jsIsSpace c then
      if prevSpace then collapseWsAux true cs
      else ' ' :: collapseWsAux true cs
    else c :: collapseWsAux false cs

/-- Second replace of normalizeText, the global regex replacing every maximal
newline run with one newline. -/
def collapseNlAux : Bool → List Char → List Char
  | _, [] => []
  | prevNl, c :: cs =>
    if c == '\n' then
      if prevNl then collapseNlAux true cs
      else '\n' :: collapseNlAux true cs
    else c :: collapseNlAux false cs

/-- Model of JavaScript String.prototype.trim on character lists. -/
def jsTrimChars (cs : List Char) : List Char :=
  ((cs.dropWhile jsIsSpace).reverse.dropWhile jsIsSpace).reverse

/-- Model of JavaScript String.prototype.trim. -/
def strTrim (s : String) : String := String.mk (jsTrimChars s.data)

/-- The parser's normalizeText from the source: collapse whitespace runs to
one space, collapse newline runs to one newline, then trim. -/
def normalizeText (text : String) : String :=
  String.mk (jsTrimChars (collapseNlAux false (collapseWsAux false text.data)))

/-- Model of JavaScript String.prototype.split with separator newline:
accumulates the current field in reverse and emits it at each newline. -/
def splitNlAux : List Char → List Char → List (List Char)
  | [], cur => [cur.reverse]
  | c :: cs, cur =>
    if c == '\n' then cur.reverse :: splitNlAux cs []
    else splitNlAux cs (c :: cur)

/-- Split a string on newline characters, as text.split of a newline does. -/
def splitNl (s : String) : List String := (splitNlAux s.data []).map String.mk

/-- Loop of the parser's extractSection: a line containing one of the
section's keywords opens the section, a later line containing any of the
four recognized section-type keywords closes it, and lines in between are
accumulated. -/
def extractSectionGo (keywords : List String) : List String → Bool → List String → List String
  | [], _, acc => acc
  | line :: rest, inSection, acc =>
    let lowerLine := jsToLower line
    if keywords.any fun keyword => strContains lowerLine keyword then
      extractSectionGo keywords rest true acc
    else if inSection && (strContains lowerLine "experience" || strContains lowerLine "education" ||
        strContains lowerLine "skills" || strContains lowerLine "certifications") then
      acc
    else if inSection then extractSectionGo keywords rest true (acc ++ [line])
    else extractSectionGo keywords rest false acc

/-- The parser's extractSection from the source: line-by-line scan over the
text split at newlines, joining the collected lines with newlines, null when
nothing was collected. -/
def extractSection (text : String) (keywords : List String) : Option String :=
  let sectionContent := extractSectionGo keywords (splitNl text) false []
  if 0 < sectionContent.length then some (String.intercalate "\n" sectionContent) else none

/-- Backtracking regex model: a pattern maps an input to the list of
(consumed characters, remainder) alternatives in the priority order a
JavaScript regex engine explores them, so the head of the list is the
match the engine reports. -/
def Rx : Type := List Char → List (List Char × List Char)

/-- Pattern matching the empty string. -/
def rxEmpty : Rx := fun l => [([], l)]

/-- Pattern matching one character satisfying f. -/
def rxPred (f : Char → Bool) : Rx := fun l =>
  match l with
  | c :: cs => if f c then [([c], cs)] else []
  | [] => []

/-- Sequencing of two patterns, exploring the left one's alternatives first
(the engine's depth-first order). -/
def rxSeq (p q : Rx) : Rx := fun l =>
  (p l).flatMap fun pr => (q pr.2).map fun qr => (pr.1 ++ qr.1, qr.2)

/-- Sequencing that keeps only the right pattern's consumed text: used to
read a capture group that follows an uncaptured prefix. -/
def rxSeqRight (p q : Rx) : Rx := fun l =>
  (p l).flatMap fun pr => q pr.2

/-- Sequencing that keeps only the left pattern's consumed text: used to
read a capture group that precedes an uncaptured suffix. -/
def rxSeqLeft (p q : Rx) : Rx := fun l =>
  (p l).flatMap fun pr => (q pr.2).map fun qr => (pr.1, qr.2)

/-- Ordered alternation of two patterns. -/
def rxAlt (p q : Rx) : Rx := fun l => p l ++ q l

/-- Ordered alternation of a list of patterns, tried left to right as a
regex alternation is. -/
def rxAlts (ps : List Rx) : Rx := fun l => ps.flatMap fun p => p l

/-- Greedy optional: the present alternative is explored first. -/
def rxOpt (p : Rx) : Rx := rxAlt p rxEmpty

/-- Case-sensitive character comparison. -/
def charEq (a b : Char) : Bool := a == b

/-- Case-insensitive character comparison (the regex i flag, ASCII). -/
def charEqCI (a b : Char) : Bool := Char.toLower a == Char.toLower b

/-- Literal pattern over a character list under a comparison. -/
def rxCharsLit (cmp : Char → Char → Bool) : List Char → Rx
  | [] => rxEmpty
  | c :: cs => rxSeq (rxPred fun d => cmp d c) (rxCharsLit cmp cs)

/-- Literal string pattern; ci selects the i flag. -/
def rxLit (ci : Bool) (s : String) : Rx :=
  rxCharsLit (if ci then charEqCI else charEq) s.data

/-- Exactly n characters satisfying f (a counted character class). -/
def rxCount (f : Char → Bool) (n : ℕ) : Rx := fun l =>
  let t := l.take n
  if t.length == n && t.all f then [(t, l.drop n)] else []

/-- Greedy character-class repetition with a lower bound: alternatives from
the longest run down to lo characters. -/
def rxManyGreedy (f : Char → Bool) (lo : ℕ) : Rx := fun l =>
  let run := l.takeWhile f
  (List.range (run.length + 1)).reverse.filterMap fun k =>
    if lo ≤ k then some (run.take k, l.drop k) else none

/-- Lazy character-class repetition with a lower bound: alternatives from lo
characters upward (the regex *? and +? operators). -/
def rxManyLazy (f : Char → Bool) (lo : ℕ) : Rx := fun l =>
  let run := l.takeWhile f
  (List.range (run.length + 1)).filterMap fun k =>
    if lo ≤ k then some (run.take k, l.drop k) else none

/-- Exactly n repetitions of a subpattern. -/
def rxRepExact (p : Rx) : ℕ → Rx
  | 0 => rxEmpty
  | n + 1 => rxSeq p (rxRepExact p n)

/-- Greedy bounded repetition of a subpattern: counts from hi down to lo. -/
def rxRepRange (p : Rx) (lo hi : ℕ) : Rx :=
  rxAlts (((List.range (hi + 1)).reverse.filter fun k => lo ≤ k).map fun k => rxRepExact p k)

/-- The match the engine reports at a fixed position: the first alternative. -/
def rxMatchAt (p : Rx) (l : List Char) : Option (List Char × List Char) :=
  (p l).head?

/-- Leftmost match: positions are tried left to right, as an unanchored
JavaScript regex search does. -/
def rxSearchAux (p : Rx) : List Char → Option (List Char × List Char)
  | [] => rxMatchAt p []
  | c :: cs =>
    match rxMatchAt p (c :: cs) with
    | some r => some r
    | none => rxSearchAux p cs

/-- Leftmost match of a pattern in a string, returning the consumed text. -/
def rxSearch (p : Rx) (s : String) : Option String :=
  (rxSearchAux p s.data).map fun r => String.mk r.1

/-- All matches of a global regex: scan left to right, resuming after each
match (advancing one character after an empty match, as lastIndex does).
Fuel bounds the recursion by the input length. -/
def rxAllAux (p : Rx) : ℕ → List Char → List (List Char)
  | 0, _ => []
  | _ + 1, [] =>
    match rxMatchAt p [] with
    | some r => [r.1]
    | none => []
  | fuel + 1, c :: cs =>
    match rxMatchAt p (c :: cs) with
    | some (m, rest) =>
      if m.isEmpty then rxAllAux p fuel cs
      else m :: rxAllAux p fuel rest
    | none => rxAllAux p fuel cs

/-- All matches of a global regex in a string (the match array a g-flagged
String.prototype.match returns). -/
def rxAll (p : Rx) (s : String) : List String :=
  (rxAllAux p (s.data.length + 1) s.data).map String.mk

/-- One capitalized name word of extractFullName's patterns, the regex
piece A-Z then a-z plus; under the i flag both classes match any letter. -/
def nameWordRx (ci : Bool) : Rx :=
  rxSeq (rxPred fun c => if ci then c.isAlpha else isUpperAZ c)
        (rxManyGreedy (fun c => if ci then c.isAlpha else isLowerAZ c) 1)

/-- One or more whitespace characters. -/
def spaces1Rx : Rx := rxManyGreedy jsIsSpace 1

/-- Core of the three name patterns: a name word followed by one to three
further whitespace-separated name words, greedy. -/
def nameCoreRx (ci : Bool) : Rx :=
  rxSeq (nameWordRx ci) (rxRepRange (rxSeq spaces1Rx (nameWordRx ci)) 1 3)

/-- The parser's extractFullName from the source: the anchored pattern at
document start, then a Name-labelled pattern, then a pattern ending in the
word Resume; the first match wins, else Unknown. The first pattern carries
the m flag, but extractFullName is only ever applied to normalizeText
output, which contains no newline, so the anchor only matches position 0. -/
def extractFullName (text : String) : String :=
  match rxMatchAt (nameCoreRx false) text.data with
  | some r => String.mk r.1
  | none =>
    match rxSearchAux (rxSeqRight
        (rxSeq (rxLit true "Name") (rxManyGreedy (fun c => c == ':' || jsIsSpace c) 1))
        (nameCoreRx true)) text.data with
    | some r => String.mk r.1
    | none =>
      match rxSearchAux (rxSeqLeft (nameCoreRx true)
          (rxSeq spaces1Rx (rxLit true "Resume"))) text.data with
      | some r => String.mk r.1
      | none => "Unknown"

/-- Character class of the email pattern's local part. -/
def inEmailLocal (c : Char) : Bool :=
  c.isAlphanum || c == '.' || c == '_' || c == '%' || c == '+' || c == '-'

/-- Character class of the email pattern's domain part. -/
def inEmailDomain (c : Char) : Bool := c.isAlphanum || c == '.' || c == '-'

/-- Backtracking of the greedy domain class before the dot-and-letters tail
of the email pattern: the rightmost dot of the maximal domain run that is
followed by at least two letters wins, and the match extends through that
letter run. Returns the matched domain length. -/
def emailDomSplit (dom : List Char) : Option ℕ :=
  ((List.range dom.length).reverse.filterMap fun i =>
    if dom.get? i == some '.' then
      let run := ((dom.drop (i + 1)).takeWhile Char.isAlpha).length
      if 2 ≤ run then some (i + 1 + run) else none
    else none).head?

/-- The email pattern tried at one position: local part, at sign, domain
with the dot-and-letters tail. -/
def emailAt (l : List Char) : Option (List Char) :=
  let localPart := l.takeWhile inEmailLocal
  if localPart.isEmpty then none
  else
    match l.drop localPart.length with
    | '@' :: rest =>
      let dom := rest.takeWhile inEmailDomain
      match emailDomSplit dom with
      | some n => some (localPart ++ '@' :: dom.take n)
      | none => none
    | _ => none

/-- Scan for the leftmost email match, tracking the previous character for
the word-boundary at the start of the pattern (modelled as the previous
character not being a word character, the case a match beginning with a
word character produces; the trailing boundary is given by the maximality
of the runs). -/
def extractEmailAux : Option Char → List Char → Option (List Char)
  | prev, l =>
    match (if (prev.map isWordChar).getD false then none else emailAt l) with
    | some m => some m
    | none =>
      match l with
      | [] => none
      | c :: cs => extractEmailAux (some c) cs

/-- The parser's extractEmail from the source: first email-shaped token, or
the empty string. -/
def extractEmail (text : String) : String :=
  match extractEmailAux none text.data with
  | some m => String.mk m
  | none => ""

/-- Single separator character of the phone patterns, the class of dash,
dot and whitespace. -/
def phoneSepRx : Rx := rxPred fun c => c == '-' || c == '.' || jsIsSpace c

/-- First phone pattern of the source: optional country code 1, optional
parentheses, three-three-four digits with optional separators. -/
def phoneRx1 : Rx :=
  rxSeq (rxOpt (rxSeq (rxOpt (rxLit false "+")) (rxSeq (rxLit false "1") (rxOpt phoneSepRx))))
    (rxSeq (rxOpt (rxLit false "("))
      (rxSeq (rxCount Char.isDigit 3)
        (rxSeq (rxOpt (rxLit false ")"))
          (rxSeq (rxOpt phoneSepRx)
            (rxSeq (rxCount Char.isDigit 3)
              (rxSeq (rxOpt phoneSepRx) (rxCount Char.isDigit 4)))))))

/-- A greedy three-or-four digit group of the second phone pattern. -/
def phoneGroupRx : Rx := rxAlts [rxCount Char.isDigit 4, rxCount Char.isDigit 3]

/-- Second phone pattern of the source: optional international prefix of
one to three digits, then three digit groups with optional separators. -/
def phoneRx2 : Rx :=
  rxSeq (rxOpt (rxSeq (rxOpt (rxLit false "+"))
      (rxSeq (rxAlts [rxCount Char.isDigit 3, rxCount Char.isDigit 2, rxCount Char.isDigit 1])
        (rxOpt phoneSepRx))))
    (rxSeq phoneGroupRx
      (rxSeq (rxOpt phoneSepRx)
        (rxSeq phoneGroupRx
          (rxSeq (rxOpt phoneSepRx) phoneGroupRx))))

/-- The parser's extractPhone from the source: first match of either phone
pattern with separator characters stripped, or the empty string. -/
def extractPhone (text : String) : String :=
  match rxSearchAux phoneRx1 text.data with
  | some r => String.mk (r.1.filter fun c => !(c == '-' || c == '.' || jsIsSpace c))
  | none =>
    match rxSearchAux phoneRx2 text.data with
    | some r => String.mk (r.1.filter fun c => !(c == '-' || c == '.' || jsIsSpace c))
    | none => ""

/-- First degree pattern of extractEducation: a degree keyword, a lazy run
of word characters and whitespace, then a qualifier keyword (gi flags). -/
def degreeRx1 : Rx :=
  rxSeq (rxAlts [rxLit true "Bachelor", rxLit true "Master", rxLit true "PhD",
                 rxLit true "Associate", rxLit true "High School", rxLit true "Diploma"])
    (rxSeq (rxManyLazy (fun c => jsIsSpace c || isWordChar c) 0)
      (rxAlts [rxLit true "of", rxLit true "in", rxLit true "Science", rxLit true "Arts",
               rxLit true "Engineering", rxLit true "Technology", rxLit true "Computer",
               rxLit true "Business"]))

/-- Second degree pattern of extractEducation: a capitalized word followed
by Degree, Diploma or Certificate (gi flags). -/
def degreeRx2 : Rx :=
  rxSeq (nameWordRx true)
    (rxSeq spaces1Rx
      (rxAlts [rxLit true "Degree", rxLit true "Diploma", rxLit true "Certificate"]))

/-- First institution pattern: University, College, Institute or School, of,
then the capitalized name group (gi flags; the full match is kept because
findInstitution indexes the g-flagged match array). -/
def institutionRx1 : Rx :=
  rxSeq (rxAlts [rxLit true "University", rxLit true "College",
                 rxLit true "Institute", rxLit true "School"])
    (rxSeq spaces1Rx
      (rxSeq (rxLit true "of")
        (rxSeq spaces1Rx
          (rxSeq (rxPred Char.isAlpha)
            (rxManyGreedy (fun c => c.isAlpha || jsIsSpace c) 1)))))

/-- Second institution pattern: a capitalized name then University, College
or Institute (gi flags). -/
def institutionRx2 : Rx :=
  rxSeq (rxSeq (rxPred Char.isAlpha) (rxManyGreedy (fun c => c.isAlpha || jsIsSpace c) 1))
    (rxAlts [rxLit true "University", rxLit true "College", rxLit true "Institute"])

/-- Year pattern of the parser, a 20xx or 19xx four-digit year. -/
def yearRx : Rx :=
  rxAlts [rxSeq (rxLit false "20") (rxCount Char.isDigit 2),
          rxSeq (rxLit false "19") (rxCount Char.isDigit 2)]

/-- The parser's findInstitution from the source. Each pattern carries the
g flag, so text.match returns the array of full matches and the source's
match[1] is the second full match, falling back to match[0], the first. -/
def findInstitution (text : String) : List Rx → Option String
  | [] => none
  | pattern :: rest =>
    match rxAll pattern text with
    | [] => findInstitution text rest
    | m0 :: ms => some (ms.headD m0)

/-- The parser's extractYear from the source: the first year match, parsed
as an integer (parseInt of a matched year never fails). -/
def extractYear (text : String) : Option ℤ :=
  (rxSearchAux yearRx text.data).map fun r =>
    r.1.foldl (fun a c => 10 * a + ((c.toNat : ℤ) - 48)) 0

/-- The parser's extractField from the source: the capitalized field group
after in or of inside the degree string (i flag, so any-case letters). -/
def extractField (degree : String) : Option String :=
  (rxSearchAux (rxSeqRight
      (rxSeq (rxAlts [rxLit true "in", rxLit true "of"]) spaces1Rx)
      (rxSeq (rxPred Char.isAlpha) (rxManyGreedy (fun c => c.isAlpha || jsIsSpace c) 1)))
    degree.data).map fun r => String.mk r.1

/-- The parser's extractEducation from the source: within the education
section, every degree-pattern match produces an entry; institution and
year are resolved once against the whole section and shared. -/
def extractEducation (text : String) : List Education :=
  match extractSection text ["education", "academic", "degree"] with
  | none => []
  | some educationSection =>
    let institution := findInstitution educationSection [institutionRx1, institutionRx2]
    let year := extractYear educationSection
    (rxAll degreeRx1 educationSection ++ rxAll degreeRx2 educationSection).map fun degree =>
      { degree := strTrim degree
        institution := match institution with
          | some i => if i == "" then "Unknown Institution" else i
          | none => "Unknown Institution"
        graduationYear := year
        field := extractField degree }

/-- Job-title keywords of extractWorkExperience. -/
def jobTitlesList : List String :=
  ["Engineer", "Developer", "Manager", "Analyst", "Specialist", "Coordinator",
   "Director", "Lead", "Senior", "Junior", "Principal", "Architect", "Consultant"]

/-- Title pattern of extractWorkExperience, the alternation of the job-title
keywords (gi flags). -/
def titleRx : Rx := rxAlts (jobTitlesList.map fun t => rxLit true t)

/-- Company pattern of extractWorkExperience: at, with or for, whitespace,
then a capitalized company name ending in a company suffix (gi flags; the
full match is kept because findCompany indexes the g-flagged match array). -/
def companyRx : Rx :=
  rxSeq (rxAlts [rxLit true "at", rxLit true "with", rxLit true "for"])
    (rxSeq spaces1Rx
      (rxSeq (rxSeq (rxPred Char.isAlpha)
          (rxManyGreedy (fun c => c.isAlpha || jsIsSpace c || c == '&') 1))
        (rxAlts [rxLit true "Inc", rxLit true "LLC", rxLit true "Corp",
                 rxLit true "Company", rxLit true "Ltd"])))

/-- The parser's findCompany from the source. The pattern carries the g
flag, so text.match returns the array of full matches and the source's
match[1] is the second full match or undefined when only one exists. -/
def findCompany (text : String) : Option String :=
  match rxAll companyRx text with
  | _ :: m2 :: _ => some m2
  | _ => none

/-- The parser's extractDates from the source: the first two year matches
in the section, as start and end. -/
def extractDates (text : String) : Option String × Option String :=
  let dates := rxAll yearRx text
  (dates.get? 0, dates.get? 1)

/-- Model of JavaScript parseInt on a decimal string: leading whitespace,
an optional sign, then leading digits; none models NaN. -/
def jsParseInt (s : String) : Option ℤ :=
  let digitsVal : List Char → Option ℤ := fun l =>
    let run := l.takeWhile Char.isDigit
    if run.isEmpty then none
    else some (run.foldl (fun a c => 10 * a + ((c.toNat : ℤ) - 48)) 0)
  match s.data.dropWhile jsIsSpace with
  | '+' :: rest => digitsVal rest
  | '-' :: rest => (digitsVal rest).map fun n => -n
  | l => digitsVal l

/-- The parser's calculateDuration from the source: zero without a start
year, otherwise (end year or the current year minus start year) times 12.
Where parseInt yields NaN the JS arithmetic yields NaN; that unobserved
corner is modelled as 0 months. -/
def calculateDuration (currentYear : ℤ) (startOpt endOpt : Option String) : ℤ :=
  match startOpt with
  | none => 0
  | some start =>
    if start == "" then 0
    else
      match jsParseInt start with
      | none => 0
      | some startYear =>
        let endYearOpt := match endOpt with
          | some e => if e == "" then some currentYear else jsParseInt e
          | none => some currentYear
        match endYearOpt with
        | none => 0
        | some endYear => (endYear - startYear) * 12

/-- The parser's extractWorkExperience from the source: within the
experience section, every job-title match produces an entry; company and
the start and end years are resolved once against the whole section and
shared. The current year enters through calculateDuration. -/
def extractWorkExperience (currentYear : ℤ) (text : String) : List WorkExperience :=
  match extractSection text ["experience", "work", "employment"] with
  | none => []
  | some experienceSection =>
    let company := findCompany experienceSection
    let dates := extractDates experienceSection
    (rxAll titleRx experienceSection).map fun title =>
      { title := strTrim title
        company := match company with
          | some c => if c == "" then "Unknown Company" else c
          | none => "Unknown Company"
        startDate := match dates.1 with
          | some s => if s == "" then "" else s
          | none => ""
        endDate := dates.2
        duration := calculateDuration currentYear dates.1 dates.2
        description := some ""
        technologies := [] }

/-- The parser's fixed technical-skills vocabulary (25 entries). -/
def parserSkillsList : List String :=
  ["JavaScript", "Python", "Java", "C++", "React", "Angular", "Vue", "Node.js",
   "SQL", "MongoDB", "AWS", "Azure", "Docker", "Kubernetes", "Git", "Linux",
   "HTML", "CSS", "TypeScript", "PHP", "Ruby", "Go", "Rust", "Swift", "Kotlin"]

/-- The parser's extractSkills from the source: every vocabulary match in
the skills section produces a technical intermediate skill named by the
matched text. -/
def extractSkills (text : String) : List Skill :=
  match extractSection text ["skills", "technical skills", "competencies"] with
  | none => []
  | some skillsSection =>
    (rxAll (rxAlts (parserSkillsList.map fun s => rxLit true s)) skillsSection).map fun m =>
      { name := m, category := "technical", proficiency := "intermediate" }

/-- Certification pattern of extractCertifications: a capitalized phrase
ending in Certification, Certificate or Certified (gi flags). -/
def certRx : Rx :=
  rxSeq (rxPred Char.isAlpha)
    (rxSeq (rxManyGreedy (fun c => c.isAlpha || jsIsSpace c) 1)
      (rxAlts [rxLit true "Certification", rxLit true "Certificate", rxLit true "Certified"]))

/-- The parser's extractCertifications from the source. -/
def extractCertifications (text : String) : List Certification :=
  match extractSection text ["certifications", "certificates", "credentials"] with
  | none => []
  | some certSection =>
    (rxAll certRx certSection).map fun m =>
      { name := m, issuingOrganization := "Unknown",
        issueDate := none, expiryDate := none, credentialId := none }

/-- The parser's parseRawResume from the source: normalize the text, then
run the independent field extractors over the normalized text. -/
def parseRawResume (currentYear : ℤ) (rawText : String) : ParsedResume :=
  let normalizedText := normalizeText rawText
  { fullName := extractFullName normalizedText
    email := extractEmail normalizedText
    phone := extractPhone normalizedText
    education := extractEducation normalizedText
    workExperience := extractWorkExperience currentYear normalizedText
    skills := extractSkills normalizedText
    certifications := extractCertifications normalizedText
    rawText := some rawText }

/-- JavaScript falsy-or on an optional string against a string default: an
absent or empty value falls through (a || b with strings). -/
def jsOrStr : Option String → String → String
  | some s, b => if s == "" then b else s
  | none, b => b

/-- JavaScript falsy-or chaining two optional strings. -/
def jsOrOptStr : Option String → Option String → Option String
  | some s, b => if s == "" then b else some s
  | none, b => b

/-- JavaScript falsy-or on an optional number against a number default
(zero is falsy). -/
def jsOrInt : Option ℤ → ℤ → ℤ
  | some n, b => if n == 0 then b else n
  | none, b => b

/-- JavaScript falsy-or chaining two optional numbers. -/
def jsOrOptInt : Option ℤ → Option ℤ → Option ℤ
  | some n, b => if n == 0 then b else some n
  | none, b => b

/-- Structured education entry as the alternate-name probing of
normalizeEducation reads it. -/
structure StructEducation where
  degree : Option String := none
  name : Option String := none
  institution : Option String := none
  school : Option String := none
  university : Option String := none
  graduationYear : Option ℤ := none
  year : Option ℤ := none
  graduationDate : Option ℤ := none
  field : Option String := none
  major : Option String := none
  study : Option String := none
  gpa : Option ℚ := none

/-- Structured work-experience entry as normalizeWorkExperience reads it;
fromProp, endProp and toProp stand for the JS properties from, end and to,
whose names are reserved words in Lean. -/
structure StructExperience where
  title : Option String := none
  jobTitle : Option String := none
  position : Option String := none
  company : Option String := none
  employer : Option String := none
  organization : Option String := none
  startDate : Option String := none
  start : Option String := none
  fromProp : Option String := none
  endDate : Option String := none
  endProp : Option String := none
  toProp : Option String := none
  duration : Option ℤ := none
  description : Option String := none
  summary : Option String := none
  technologies : Option (List String) := none
  tech : Option (List String) := none
  skills : Option (List String) := none

/-- Structured skill entry fields as normalizeSkills reads an object. -/
structure StructSkillObj where
  name : Option String := none
  skill : Option String := none
  category : Option String := none
  proficiency : Option String := none
  yearsOfExperience : Option ℤ := none
  years : Option ℤ := none

/-- Structured skill entry: normalizeSkills accepts a bare string or an
object. -/
inductive StructSkill where
  | str (s : String)
  | obj (o : StructSkillObj)

/-- Structured certification entry as normalizeCertifications reads it;
idProp stands for the JS property id. -/
structure StructCertification where
  name : Option String := none
  certification : Option String := none
  issuingOrganization : Option String := none
  issuer : Option String := none
  organization : Option String := none
  issueDate : Option String := none
  issued : Option String := none
  date : Option String := none
  expiryDate : Option String := none
  expires : Option String := none
  expiration : Option String := none
  credentialId : Option String := none
  idProp : Option String := none
  credential : Option String := none

/-- Structured resume object as parseStructuredResume probes it. -/
structure StructuredResume where
  name : Option String := none
  fullName : Option String := none
  email : Option String := none
  phone : Option String := none
  phoneNumber : Option String := none
  education : Option (List StructEducation) := none
  experience : Option (List StructExperience) := none
  workExperience : Option (List StructExperience) := none
  skills : Option (List StructSkill) := none
  certifications : Option (List StructCertification) := none

/-- The parser's normalizeEducation from the source. -/
def normalizeEducation (education : List StructEducation) : List Education :=
  education.map fun edu =>
    { degree := jsOrStr edu.degree (jsOrStr edu.name "Unknown")
      institution := jsOrStr edu.institution (jsOrStr edu.school (jsOrStr edu.university "Unknown"))
      graduationYear := jsOrOptInt edu.graduationYear (jsOrOptInt edu.year edu.graduationDate)
      field := jsOrOptStr edu.field (jsOrOptStr edu.major edu.study)
      gpa := edu.gpa }

/-- The parser's normalizeWorkExperience from the source; a missing or zero
duration is derived by calculateDuration on the raw startDate and endDate
properties, which brings in the current year when endDate is absent. -/
def normalizeWorkExperience (currentYear : ℤ) (experience : List StructExperience) : List WorkExperience :=
  experience.map fun exp =>
    { title := jsOrStr exp.title (jsOrStr exp.jobTitle (jsOrStr exp.position "Unknown"))
      company := jsOrStr exp.company (jsOrStr exp.employer (jsOrStr exp.organization "Unknown"))
      startDate := jsOrStr exp.startDate (jsOrStr exp.start (jsOrStr exp.fromProp ""))
      endDate := jsOrOptStr exp.endDate (jsOrOptStr exp.endProp exp.toProp)
      duration := jsOrInt exp.duration (calculateDuration currentYear exp.startDate exp.endDate)
      description := some (jsOrStr exp.description (jsOrStr exp.summary ""))
      technologies := ((exp.technologies.orElse fun _ => exp.tech).orElse fun _ => exp.skills).getD [] }

/-- The parser's normalizeSkills from the source. -/
def normalizeSkills (skills : List StructSkill) : List Skill :=
  skills.map fun skill =>
    match skill with
    | .str s => { name := s, category := "technical", proficiency := "intermediate" }
    | .obj o =>
      { name := jsOrStr o.name (jsOrStr o.skill "Unknown")
        category := jsOrStr o.category "technical"
        proficiency := jsOrStr o.proficiency "intermediate"
        yearsOfExperience := jsOrOptInt o.yearsOfExperience o.years }

/-- The parser's normalizeCertifications from the source. -/
def normalizeCertifications (certifications : List StructCertification) : List Certification :=
  certifications.map fun cert =>
    { name := jsOrStr cert.name (jsOrStr cert.certification "Unknown")
      issuingOrganization := jsOrStr cert.issuingOrganization (jsOrStr cert.issuer (jsOrStr cert.organization "Unknown"))
      issueDate := jsOrOptStr cert.issueDate (jsOrOptStr cert.issued cert.date)
      expiryDate := jsOrOptStr cert.expiryDate (jsOrOptStr cert.expires cert.expiration)
      credentialId := jsOrOptStr cert.credentialId (jsOrOptStr cert.idProp cert.credential) }

/-- The parser's parseStructuredResume from the source. -/
def parseStructuredResume (currentYear : ℤ) (data : StructuredResume) : ParsedResume :=
  { fullName := jsOrStr data.name (jsOrStr data.fullName "Unknown")
    email := jsOrStr data.email ""
    phone := jsOrStr data.phone (jsOrStr data.phoneNumber "")
    education := normalizeEducation (data.education.getD [])
    workExperience := normalizeWorkExperience currentYear ((data.experience.orElse fun _ => data.workExperience).getD [])
    skills := normalizeSkills (data.skills.getD [])
    certifications := normalizeCertifications (data.certifications.getD [])
    rawText := none }

/-- JavaScript values a caller can hand parseResume, as typeof sees them: a
string, a non-null object (modelled by the probed record shape), null,
undefined, a number or a boolean. -/
inductive JSInput where
  | jstr (s : String)
  | jobj (data : StructuredResume)
  | jnull
  | jundef
  | jnum (n : ℤ)
  | jbool (b : Bool)

/-- The parser's parseResume from the source: a string goes down the
raw-text path, a non-null object down the structured path, and anything
else throws, modelled as the error value of Except. -/
def parseResume (currentYear : ℤ) : JSInput → Except String ParsedResume
  | .jstr s => .ok (parseRawResume currentYear s)
  | .jobj data => .ok (parseStructuredResume currentYear data)
  | _ => .error "Invalid input format. Expected string or object."

/-- R1Agent's private parseResume stage from the source (named
parseResumeStage here so the recursive-name lookup does not shadow the
module-level parser it calls): it catches the parser's error and re-raises
it prefixed with the stage annotation; both input variants of the source
call the same module-level parser. -/
def R1Agent.parseResumeStage (currentYear : ℤ) (resumeInput : JSInput) : Except String ParsedResume :=
  match parseResume currentYear resumeInput with
  | .ok parsed => .ok parsed
  | .error e => .error ("Failed to parse resume: " ++ e)

/-- R1Agent.createErrorResult from the source: the sentinel fail result with
the default Unknown profile and the message in errorMessages. -/
def R1Agent.createErrorResult (errorMessage : String) : ScreeningResult :=
  { candidateProfile :=
      { fullName := "Unknown", email := "", phone := "",
        education := [], workExperience := [], skills := [], certifications := [] }
    screeningResult := "fail"
    matchReasons := ["Processing error occurred"]
    confidenceScore := 0
    missingRequirements := []
    errorMessages := [errorMessage] }

/-- R1Agent.runR1 from the source: parse, extract (the extracted features
are computed and unused, as in the source), evaluate; any stage error is
caught and turned into createErrorResult of its message. In this model the
extraction and evaluation stages are total, so the parse stage is the one
that can fail. -/
def R1Agent.runR1 (currentYear : ℤ) (resumeInput : JSInput) (jobRequirements : JobRequirements) : ScreeningResult :=
  match R1Agent.parseResumeStage currentYear resumeInput with
  | .error errorMessage => R1Agent.createErrorResult errorMessage
  | .ok parsedResume =>
    let _extractedFeatures := FeatureExtractor.extractFeatures parsedResume
    ResumeEvaluator.evaluateAgainstCriteria parsedResume jobRequirements

/-- Sum of the four earned category scores, the passScore accumulator of
performEvaluation. -/
def ResumeEvaluator.earnedPoints (features : EvalFeatures) (requirements : JobRequirements) : ℕ :=
  (ResumeEvaluator.evaluateExperience features requirements).score
    + (ResumeEvaluator.evaluateSkills features requirements).score
    + (ResumeEvaluator.evaluateEducation features requirements).score
    + (ResumeEvaluator.evaluateCertifications features requirements).score

/-- Concrete candidate with no resume content, used to instantiate the
universally quantified theorems. -/
def emptyProfile : ParsedResume :=
  { fullName := "Unknown", email := "", phone := "",
    education := [], workExperience := [], skills := [], certifications := [] }

/-- Concrete requirements with no required certifications. -/
def basicReqs : JobRequirements :=
  { minimumYearsOfExperience := 3, requiredSkills := ["JavaScript"], preferredSkills := [],
    requiredEducation := { minimumDegree := "bachelor" } }

/-- Concrete candidate holding only design tools, none of the required
skills. -/
def designProfile : ParsedResume :=
  { fullName := "Jane Roe", email := "", phone := "",
    education := [], workExperience := [],
    skills := [{ name := "Photoshop" }, { name := "Illustrator" }], certifications := [] }

/-- Concrete requirements asking for JavaScript, React and Node.js. -/
def frontendReqs : JobRequirements :=
  { minimumYearsOfExperience := 3, requiredSkills := ["JavaScript", "React", "Node.js"],
    preferredSkills := [], requiredEducation := { minimumDegree := "bachelor" } }

/-- Concrete work history of one two-year developer position. -/
def sampleExperience : List WorkExperience :=
  [{ title := "Software Developer", company := "Acme", startDate := "2020",
     endDate := some "2022", duration := 24, description := some "", technologies := [] }]

/-- A character list is an initial segment of itself. -/
theorem charsPre_refl (l : List Char) : charsPre l l = true := by
  induction l with
  | nil => rfl
  | cons c cs ih => simp [charsPre, ih]

/-- A string contains its own suffix: the occurrence starts right after the
prefix. -/
theorem strContains_append_right (a b : String) : strContains (a ++ b) b = true := by
  unfold strContains
  rw [List.any_eq_true]
  refine ⟨a.data.length, ?_, ?_⟩
  · rw [List.mem_range, String.data_append, List.length_append]
    omega
  · rw [String.data_append, List.drop_left]
    exact charsPre_refl b.data

/-- jsRound is the floor of its argument plus one half, the usual statement
of JavaScript Math.round on exact rationals. -/
theorem jsRound_eq (q : ℚ) : jsRound q = ⌊q + 1/2⌋ := by
  unfold jsRound
  congr 1
  rw [Rat.divInt_eq_div]
  have hd : ((q.den : ℚ)) ≠ 0 := by
    exact_mod_cast q.den_nz
  have hq : q * (q.den : ℚ) = (q.num : ℚ) := by
    nth_rewrite 1 [← Rat.num_div_den q]
    rw [div_mul_cancel₀ _ hd]
  push_cast
  rw [div_eq_iff (by simp [hd])]
  linear_combination (-2 : ℚ) * hq

/-- The reduce of both calculateTotalExperience copies is the list sum. -/
theorem foldl_duration_sum (l : List WorkExperience) (a : ℤ) :
    l.foldl (fun total exp => total + exp.duration) a = a + (l.map fun e => e.duration).sum := by
  induction l generalizing a with
  | nil => simp
  | cons e es ih => simp [List.foldl_cons, ih]; ring

/-- Confidence of performEvaluation is the earned points over the fixed
total of 100 (both category shape and the positive-total guard reduce
definitionally). -/
theorem performEvaluation_confidence (features : EvalFeatures) (requirements : JobRequirements) :
    (ResumeEvaluator.performEvaluation features requirements).confidence
      = Rat.divInt (ResumeEvaluator.earnedPoints features requirements : ℤ) 100 := rfl

/-- Pass flag of performEvaluation is the 0.7 threshold on the confidence. -/
theorem performEvaluation_pass (features : EvalFeatures) (requirements : JobRequirements) :
    (ResumeEvaluator.performEvaluation features requirements).pass
      = decide ((ResumeEvaluator.performEvaluation features requirements).confidence ≥ Rat.divInt 7 10) := rfl

/-- Reasons of performEvaluation, one optional entry per passing category,
in evaluation order. -/
theorem performEvaluation_reasons (features : EvalFeatures) (requirements : JobRequirements) :
    (ResumeEvaluator.performEvaluation features requirements).reasons
      = (if (ResumeEvaluator.evaluateExperience features requirements).pass
          then ["✓ " ++ toString features.totalExperience ++ " years of experience"] else [])
        ++ (if (ResumeEvaluator.evaluateSkills features requirements).pass
          then ["✓ Has required technical skills"] else [])
        ++ (if (ResumeEvaluator.evaluateEducation features requirements).pass
          then ["✓ Meets education requirements"] else [])
        ++ (if (ResumeEvaluator.evaluateCertifications features requirements).pass
          then ["✓ Has relevant certifications"] else []) := rfl

/-- Missing requirements of performEvaluation, one optional entry per
failing category, in evaluation order. -/
theorem performEvaluation_missing (features : EvalFeatures) (requirements : JobRequirements) :
    (ResumeEvaluator.performEvaluation features requirements).missing
      = (if (ResumeEvaluator.evaluateExperience features requirements).pass then []
          else ["Requires " ++ toString requirements.minimumYearsOfExperience ++ "+ years experience"])
        ++ (if (ResumeEvaluator.evaluateSkills features requirements).pass then []
          else ["Missing required skills: " ++ String.intercalate ", "
            (requirements.requiredSkills.filter fun skill =>
              !(features.candidateSkillNames.contains (jsToLower skill)))])
        ++ (if (ResumeEvaluator.evaluateEducation features requirements).pass then []
          else ["Requires " ++ requirements.requiredEducation.minimumDegree ++ " degree"])
        ++ (if (ResumeEvaluator.evaluateCertifications features requirements).pass then []
          else match requirements.requiredCertifications with
            | some l => if 0 < l.length then ["Missing required certifications"] else []
            | none => []) := rfl

/-- Experience score decomposes as 20 points for minimum years plus 10 for
keyword relevance. -/
theorem evaluateExperience_score (features : EvalFeatures) (requirements : JobRequirements) :
    (ResumeEvaluator.evaluateExperience features requirements).score
      = (if requirements.minimumYearsOfExperience ≤ features.totalExperience then 20 else 0)
        + (if features.hasRelevantExperience then 10 else 0) := by
  unfold ResumeEvaluator.evaluateExperience
  by_cases hm : requirements.minimumYearsOfExperience ≤ features.totalExperience <;>
    cases hr : features.hasRelevantExperience <;>
      simp [hm, hr, ge_iff_le]

/-- Experience score is at most 30. -/
theorem evaluateExperience_score_le (features : EvalFeatures) (requirements : JobRequirements) :
    (ResumeEvaluator.evaluateExperience features requirements).score ≤ 30 := by
  rw [evaluateExperience_score]
  split <;> split <;> omega

/-- Skills score is at most 40. -/
theorem evaluateSkills_score_le (features : EvalFeatures) (requirements : JobRequirements) :
    (ResumeEvaluator.evaluateSkills features requirements).score ≤ 40 := by
  unfold ResumeEvaluator.evaluateSkills
  cases hs : features.hasRequiredSkills <;>
    by_cases hp : features.skillMatch.percentage ≥ 50 <;>
      simp [hs, hp]

/-- Education score is at most 20. -/
theorem evaluateEducation_score_le (features : EvalFeatures) (requirements : JobRequirements) :
    (ResumeEvaluator.evaluateEducation features requirements).score ≤ 20 := by
  unfold ResumeEvaluator.evaluateEducation
  by_cases hm : ResumeEvaluator.levelHierarchy features.educationLevel
      ≥ ResumeEvaluator.levelHierarchy requirements.requiredEducation.minimumDegree <;>
    cases hr : features.hasRelevantEducation <;>
      simp [hm, hr]

/-- Certifications score is at most 10. -/
theorem evaluateCertifications_score_le (features : EvalFeatures) (requirements : JobRequirements) :
    (ResumeEvaluator.evaluateCertifications features requirements).score ≤ 10 := by
  unfold ResumeEvaluator.evaluateCertifications
  rcases requirements.requiredCertifications with _ | l
  · simp
  · by_cases hl : (l.length == 0) = true <;> cases hc : features.hasCertifications <;> simp [hl, hc]

/-- C1: for every candidate profile and job requirements,
evaluateAgainstCriteria returns a confidenceScore equal to the sum of the
earned category points divided by 100, lying in the closed interval from 0
to 1, and returns screeningResult pass exactly when the confidenceScore is
at least 0.70; since the decision reads only the weighted sum, no single
category failure forces fail when the sum still clears the threshold. -/
theorem evaluateAgainstCriteria_confidence_threshold (p : ParsedResume) (r : JobRequirements) :
    (ResumeEvaluator.evaluateAgainstCriteria p r).confidenceScore
        = (ResumeEvaluator.earnedPoints (ResumeEvaluator.extractEvaluationFeatures p) r : ℚ) / 100
    ∧ 0 ≤ (ResumeEvaluator.evaluateAgainstCriteria p r).confidenceScore
    ∧ (ResumeEvaluator.evaluateAgainstCriteria p r).confidenceScore ≤ 1
    ∧ ((ResumeEvaluator.evaluateAgainstCriteria p r).screeningResult = "pass"
        ↔ 7/10 ≤ (ResumeEvaluator.evaluateAgainstCriteria p r).confidenceScore) := by
  have hconf : (ResumeEvaluator.evaluateAgainstCriteria p r).confidenceScore
      = Rat.divInt (ResumeEvaluator.earnedPoints (ResumeEvaluator.extractEvaluationFeatures p) r : ℤ) 100 := rfl
  have hdiv : (Rat.divInt (ResumeEvaluator.earnedPoints (ResumeEvaluator.extractEvaluationFeatures p) r : ℤ) 100 : ℚ)
      = (ResumeEvaluator.earnedPoints (ResumeEvaluator.extractEvaluationFeatures p) r : ℚ) / 100 := by
    rw [Rat.divInt_eq_div]
    push_cast
    ring
  have hle : ResumeEvaluator.earnedPoints (ResumeEvaluator.extractEvaluationFeatures p) r ≤ 100 := by
    have h1 := evaluateExperience_score_le (ResumeEvaluator.extractEvaluationFeatures p) r
    have h2 := evaluateSkills_score_le (ResumeEvaluator.extractEvaluationFeatures p) r
    have h3 := evaluateEducation_score_le (ResumeEvaluator.extractEvaluationFeatures p) r
    have h4 := evaluateCertifications_score_le (ResumeEvaluator.extractEvaluationFeatures p) r
    unfold ResumeEvaluator.earnedPoints
    omega
  refine ⟨by rw [hconf, hdiv], ?_, ?_, ?_⟩
  · rw [hconf, hdiv]
    positivity
  · rw [hconf, hdiv]
    rw [div_le_one (by norm_num)]
    exact_mod_cast hle
  · have hres : (ResumeEvaluator.evaluateAgainstCriteria p r).screeningResult
        = if (ResumeEvaluator.performEvaluation (ResumeEvaluator.extractEvaluationFeatures p) r).pass
          then "pass" else "fail" := rfl
    have hcs : (ResumeEvaluator.evaluateAgainstCriteria p r).confidenceScore
        = (ResumeEvaluator.performEvaluation (ResumeEvaluator.extractEvaluationFeatures p) r).confidence := rfl
    have h710 : (Rat.divInt 7 10 : ℚ) = 7/10 := by
      rw [Rat.divInt_eq_div]
      norm_num
    rw [hres, performEvaluation_pass, hcs, ← h710]
    by_cases hc : Rat.divInt 7 10
        ≤ (ResumeEvaluator.performEvaluation (ResumeEvaluator.extractEvaluationFeatures p) r).confidence
    · simp [hc, ge_iff_le]
    · simp [hc, ge_iff_le, show ("fail" : String) ≠ "pass" by decide]

/-- The description lowering of hasRelevantExperience in getD form. -/
theorem descriptionLower_eq (o : Option String) :
    (match o with | some d => jsToLower d | none => "") = jsToLower (o.getD "") := by
  cases o <;> rfl

/-- C4: in every evaluation the experience category contributes exactly 20
points when the rounded total experience meets the required minimum years,
plus 10 points when some work experience's lowercased title or description
contains one of the fixed relevance keywords; the two contributions are
independent, so the 10-point bonus is awarded even when the minimum-years
condition fails. -/
theorem evaluateExperience_bonus_independent (p : ParsedResume) (r : JobRequirements) :
    (ResumeEvaluator.evaluateExperience (ResumeEvaluator.extractEvaluationFeatures p) r).score
        = (if r.minimumYearsOfExperience ≤ ResumeEvaluator.calculateTotalExperience p.workExperience
            then 20 else 0)
          + (if ResumeEvaluator.hasRelevantExperience p.workExperience = true then 10 else 0)
    ∧ (ResumeEvaluator.hasRelevantExperience p.workExperience = true ↔
        ∃ exp ∈ p.workExperience, ∃ keyword ∈ ResumeEvaluator.relevantKeywords,
          (strContains (jsToLower exp.title) keyword = true ∨
           strContains (jsToLower (exp.description.getD "")) keyword = true)) := by
  constructor
  · rw [evaluateExperience_score]
    have h1 : (ResumeEvaluator.extractEvaluationFeatures p).totalExperience
        = ResumeEvaluator.calculateTotalExperience p.workExperience := rfl
    have h2 : (ResumeEvaluator.extractEvaluationFeatures p).hasRelevantExperience
        = ResumeEvaluator.hasRelevantExperience p.workExperience := rfl
    rw [h1, h2]
  · unfold ResumeEvaluator.hasRelevantExperience
    simp only [descriptionLower_eq, List.any_eq_true, Bool.or_eq_true]

/-- C5 counterexample: a candidate with no certifications screened against
requirements with no required certifications receives the reason string in
matchReasons, so the claim that the reason is NOT added in the vacuous-pass
branch is false on the code. -/
theorem certifications_vacuous_reason_added_cex :
    emptyProfile.certifications = []
    ∧ basicReqs.requiredCertifications = none
    ∧ "✓ Has relevant certifications"
        ∈ (ResumeEvaluator.evaluateAgainstCriteria emptyProfile basicReqs).matchReasons :=
  ⟨rfl, rfl, by decide⟩

/-- C5 amended: whenever requiredCertifications is empty or absent, the
certifications category passes with the full 10 points for every candidate,
including candidates with zero certifications, and in this vacuous-pass
branch the reason string IS added to matchReasons (performEvaluation pushes
it for every passing certification category). -/
theorem evaluateCertifications_vacuous_pass (p : ParsedResume) (r : JobRequirements)
    (h : r.requiredCertifications = none ∨ r.requiredCertifications = some []) :
    ResumeEvaluator.evaluateCertifications (ResumeEvaluator.extractEvaluationFeatures p) r
        = { pass := true, score := 10 }
    ∧ "✓ Has relevant certifications"
        ∈ (ResumeEvaluator.evaluateAgainstCriteria p r).matchReasons := by
  have hcert : ResumeEvaluator.evaluateCertifications (ResumeEvaluator.extractEvaluationFeatures p) r
      = { pass := true, score := 10 } := by
    unfold ResumeEvaluator.evaluateCertifications
    rcases h with h | h
    · rw [h]
    · rw [h]
      simp
  refine ⟨hcert, ?_⟩
  have hreas : (ResumeEvaluator.evaluateAgainstCriteria p r).matchReasons
      = (ResumeEvaluator.performEvaluation (ResumeEvaluator.extractEvaluationFeatures p) r).reasons := rfl
  rw [hreas, performEvaluation_reasons, hcert]
  simp

/-- C5 witness: the amended theorem applied to the design-tools candidate
and the certification-free requirements. -/
theorem evaluateCertifications_vacuous_pass_witness :
    ResumeEvaluator.evaluateCertifications (ResumeEvaluator.extractEvaluationFeatures designProfile) frontendReqs
        = { pass := true, score := 10 }
    ∧ "✓ Has relevant certifications"
        ∈ (ResumeEvaluator.evaluateAgainstCriteria designProfile frontendReqs).matchReasons :=
  evaluateCertifications_vacuous_pass designProfile frontendReqs (Or.inl rfl)

/-- C6: the skills category passes exactly when the candidate holds a skill
whose lowercased name matches an entry of the fixed internal common-skills
list, not the job's requiredSkills; and whenever it fails, the missing
requirements contain the string listing the lowercase-absent subset of
requirements.requiredSkills, comma separated. -/
theorem evaluateSkills_fixed_list_and_missing (p : ParsedResume) (r : JobRequirements) :
    ((ResumeEvaluator.evaluateSkills (ResumeEvaluator.extractEvaluationFeatures p) r).pass
        = ResumeEvaluator.hasRequiredSkills p.skills)
    ∧ (ResumeEvaluator.hasRequiredSkills p.skills = true ↔
        ∃ sk ∈ p.skills, ∃ req ∈ ResumeEvaluator.requiredSkillsList,
          jsToLower sk.name = jsToLower req)
    ∧ (ResumeEvaluator.hasRequiredSkills p.skills = false →
        ("Missing required skills: " ++ String.intercalate ", "
            (r.requiredSkills.filter fun skill =>
              !((p.skills.map fun sk => jsToLower sk.name).contains (jsToLower skill))))
          ∈ (ResumeEvaluator.evaluateAgainstCriteria p r).missingRequirements) := by
  refine ⟨rfl, ?_, ?_⟩
  · unfold ResumeEvaluator.hasRequiredSkills
    simp only [List.any_eq_true, List.elem_iff, List.mem_map]
    constructor
    · rintro ⟨req, hreq, sk, hsk, hname⟩
      exact ⟨sk, hsk, req, hreq, hname⟩
    · rintro ⟨sk, hsk, req, hreq, hname⟩
      exact ⟨req, hreq, sk, hsk, hname⟩
  · intro h
    have hmiss : (ResumeEvaluator.evaluateAgainstCriteria p r).missingRequirements
        = (ResumeEvaluator.performEvaluation (ResumeEvaluator.extractEvaluationFeatures p) r).missing := rfl
    have hpass : (ResumeEvaluator.evaluateSkills (ResumeEvaluator.extractEvaluationFeatures p) r).pass
        = ResumeEvaluator.hasRequiredSkills p.skills := rfl
    have hnames : (ResumeEvaluator.extractEvaluationFeatures p).candidateSkillNames
        = p.skills.map fun sk => jsToLower sk.name := rfl
    rw [hmiss, performEvaluation_missing, hpass, h, hnames]
    simp

/-- C6 witness: the design-tools candidate against the JavaScript, React
and Node.js requirements; all three required skills are listed in the
missing-requirements string. -/
theorem evaluateSkills_fixed_list_and_missing_witness :
    (("Missing required skills: " ++ String.intercalate ", "
        (frontendReqs.requiredSkills.filter fun skill =>
          !((designProfile.skills.map fun sk => jsToLower sk.name).contains (jsToLower skill))))
      ∈ (ResumeEvaluator.evaluateAgainstCriteria designProfile frontendReqs).missingRequirements)
    ∧ "Missing required skills: JavaScript, React, Node.js"
        ∈ (ResumeEvaluator.evaluateAgainstCriteria designProfile frontendReqs).missingRequirements :=
  ⟨(evaluateSkills_fixed_list_and_missing designProfile frontendReqs).2.2 (by decide), by decide⟩

/-- C8: both copies of calculateTotalExperience agree, the value is the
months sum divided by 12 and rounded half up, and it is non-negative
whenever every duration is non-negative. -/
theorem calculateTotalExperience_round_sum (wx : List WorkExperience) :
    FeatureExtractor.calculateTotalExperience wx = ResumeEvaluator.calculateTotalExperience wx
    ∧ ResumeEvaluator.calculateTotalExperience wx
        = ⌊(((wx.map fun e => e.duration).sum : ℤ) : ℚ) / 12 + 1/2⌋
    ∧ ((∀ e ∈ wx, 0 ≤ e.duration) → 0 ≤ ResumeEvaluator.calculateTotalExperience wx) := by
  have hval : ResumeEvaluator.calculateTotalExperience wx
      = ⌊(((wx.map fun e => e.duration).sum : ℤ) : ℚ) / 12 + 1/2⌋ := by
    unfold ResumeEvaluator.calculateTotalExperience
    rw [jsRound_eq, foldl_duration_sum, zero_add, Rat.divInt_eq_div]
    rw [show (((12 : ℤ) : ℚ)) = 12 from by norm_num]
  refine ⟨rfl, hval, ?_⟩
  intro h
  rw [hval]
  rw [Int.le_floor]
  have hsum : 0 ≤ (wx.map fun e => e.duration).sum := by
    apply List.sum_nonneg
    intro x hx
    rcases List.mem_map.mp hx with ⟨e, he, rfl⟩
    exact h e he
  have hq : (0 : ℚ) ≤ (((wx.map fun e => e.duration).sum : ℤ) : ℚ) / 12 := by
    apply div_nonneg _ (by norm_num)
    exact_mod_cast hsum
  push_cast
  push_cast at hq
  linarith

/-- C8 witness: the concrete one-job history of 24 months rounds to 2
years under both copies and is non-negative. -/
theorem calculateTotalExperience_round_sum_witness :
    FeatureExtractor.calculateTotalExperience sampleExperience
        = ResumeEvaluator.calculateTotalExperience sampleExperience
    ∧ ResumeEvaluator.calculateTotalExperience sampleExperience
        = ⌊(((sampleExperience.map fun e => e.duration).sum : ℤ) : ℚ) / 12 + 1/2⌋
    ∧ 0 ≤ ResumeEvaluator.calculateTotalExperience sampleExperience :=
  ⟨(calculateTotalExperience_round_sum sampleExperience).1,
   (calculateTotalExperience_round_sum sampleExperience).2.1,
   (calculateTotalExperience_round_sum sampleExperience).2.2 (by decide)⟩

/-- C10: evaluateAgainstCriteria is a pure function of its two arguments:
calls at equal argument values return equal screening results in every
observable field, with no dependence on a clock, randomness or retained
state (none of which appear in the embedded definition). -/
theorem evaluateAgainstCriteria_deterministic (p₁ p₂ : ParsedResume) (r₁ r₂ : JobRequirements)
    (hp : p₁ = p₂) (hr : r₁ = r₂) :
    (ResumeEvaluator.evaluateAgainstCriteria p₁ r₁).screeningResult
        = (ResumeEvaluator.evaluateAgainstCriteria p₂ r₂).screeningResult
    ∧ (ResumeEvaluator.evaluateAgainstCriteria p₁ r₁).confidenceScore
        = (ResumeEvaluator.evaluateAgainstCriteria p₂ r₂).confidenceScore
    ∧ (ResumeEvaluator.evaluateAgainstCriteria p₁ r₁).matchReasons
        = (ResumeEvaluator.evaluateAgainstCriteria p₂ r₂).matchReasons
    ∧ (ResumeEvaluator.evaluateAgainstCriteria p₁ r₁).missingRequirements
        = (ResumeEvaluator.evaluateAgainstCriteria p₂ r₂).missingRequirements := by
  subst hp
  subst hr
  exact ⟨rfl, rfl, rfl, rfl⟩

/-- C10 witness: two calls at the identical concrete profile and
requirements agree in every observable field. -/
theorem evaluateAgainstCriteria_deterministic_witness :
    (ResumeEvaluator.evaluateAgainstCriteria designProfile frontendReqs).screeningResult
        = (ResumeEvaluator.evaluateAgainstCriteria designProfile frontendReqs).screeningResult
    ∧ (ResumeEvaluator.evaluateAgainstCriteria designProfile frontendReqs).confidenceScore
        = (ResumeEvaluator.evaluateAgainstCriteria designProfile frontendReqs).confidenceScore
    ∧ (ResumeEvaluator.evaluateAgainstCriteria designProfile frontendReqs).matchReasons
        = (ResumeEvaluator.evaluateAgainstCriteria designProfile frontendReqs).matchReasons
    ∧ (ResumeEvaluator.evaluateAgainstCriteria designProfile frontendReqs).missingRequirements
        = (ResumeEvaluator.evaluateAgainstCriteria designProfile frontendReqs).missingRequirements :=
  evaluateAgainstCriteria_deterministic designProfile designProfile frontendReqs frontendReqs rfl rfl

/-- The first replace of normalizeText leaves no newline: every whitespace
character, newlines included, is replaced by a plain space. -/
theorem collapseWsAux_no_newline (cs : List Char) : ∀ b, '\n' ∉ collapseWsAux b cs := by
  induction cs with
  | nil => intro b; simp [collapseWsAux]
  | cons c cs ih =>
    intro b
    unfold collapseWsAux
    by_cases hc : jsIsSpace c = true
    · cases b
      · simp [hc]
        exact ih true
      · simp [hc]
        exact ih true
    · simp [hc]
      refine ⟨?_, ih false⟩
      intro he
      rw [← he] at hc
      simp [jsIsSpace] at hc

/-- The second replace of normalizeText introduces no newline into a
newline-free list. -/
theorem collapseNlAux_no_newline (cs : List Char) :
    ∀ b, '\n' ∉ cs → '\n' ∉ collapseNlAux b cs := by
  induction cs with
  | nil => intro b _; simp [collapseNlAux]
  | cons c cs ih =>
    intro b hmem
    have hc : c ≠ '\n' := fun he => hmem (he ▸ List.mem_cons_self c cs)
    have hcs : '\n' ∉ cs := fun h => hmem (List.mem_cons_of_mem c h)
    unfold collapseNlAux
    have hbeq : (c == '\n') = false := by
      simpa using hc
    simp [hbeq]
    exact ⟨fun he => hc he.symm, ih false hcs⟩

/-- Trimming only removes characters. -/
theorem mem_jsTrimChars (x : Char) (l : List Char) (h : x ∈ jsTrimChars l) : x ∈ l := by
  unfold jsTrimChars at h
  rw [List.mem_reverse] at h
  have h1 := (List.dropWhile_sublist (l := (l.dropWhile jsIsSpace).reverse) jsIsSpace).mem h
  rw [List.mem_reverse] at h1
  exact (List.dropWhile_sublist jsIsSpace).mem h1

/-- Normalized text contains no newline: the first replace maps every
whitespace run, newlines included, to a single space. -/
theorem normalizeText_no_newline (t : String) : '\n' ∉ (normalizeText t).data := by
  unfold normalizeText
  intro h
  have h1 := mem_jsTrimChars _ _ h
  have h2 := collapseNlAux_no_newline (collapseWsAux false t.data) false
    (collapseWsAux_no_newline t.data false)
  exact h2 h1

/-- Splitting a newline-free list yields the single field. -/
theorem splitNlAux_no_newline (cs : List Char) :
    ∀ acc, '\n' ∉ cs → splitNlAux cs acc = [acc.reverse ++ cs] := by
  induction cs with
  | nil => intro acc _; simp [splitNlAux]
  | cons c cs ih =>
    intro acc hmem
    have hc : c ≠ '\n' := fun he => hmem (he ▸ List.mem_cons_self c cs)
    have hcs : '\n' ∉ cs := fun h => hmem (List.mem_cons_of_mem c h)
    unfold splitNlAux
    have hbeq : (c == '\n') = false := by
      simpa using hc
    simp [hbeq, ih (c :: acc) hcs]

/-- A newline-free string splits into itself alone. -/
theorem splitNl_single (s : String) (h : '\n' ∉ s.data) : splitNl s = [s] := by
  unfold splitNl
  rw [splitNlAux_no_newline s.data [] h]
  rfl

/-- On a single line the section loop collects nothing: a keyword line
opens the section and the input ends; any other line leaves it closed. -/
theorem extractSectionGo_single (keywords : List String) (line : String) :
    extractSectionGo keywords [line] false [] = [] := by
  by_cases hk : (keywords.any fun keyword => strContains (jsToLower line) keyword) = true
  · simp [extractSectionGo, hk]
  · simp [extractSectionGo, hk]

/-- Sections never extract from newline-free text: the line scan sees one
line and collects nothing, so extractSection returns none. -/
theorem extractSection_none (text : String) (keywords : List String)
    (h : '\n' ∉ text.data) : extractSection text keywords = none := by
  unfold extractSection
  rw [splitNl_single text h, extractSectionGo_single]
  rfl

/-- C2: for every string input, parseResume takes the raw-text path, and
the returned profile's education, work experience, skills and
certifications are all empty: normalizeText replaces every whitespace run,
newlines included, with one space, so the line scan of extractSection sees
a single line and returns none for every section. -/
theorem parseRawResume_sections_empty (currentYear : ℤ) (rawText : String) :
    parseResume currentYear (JSInput.jstr rawText) = Except.ok (parseRawResume currentYear rawText)
    ∧ (parseRawResume currentYear rawText).education = []
    ∧ (parseRawResume currentYear rawText).workExperience = []
    ∧ (parseRawResume currentYear rawText).skills = []
    ∧ (parseRawResume currentYear rawText).certifications = [] := by
  have hn := normalizeText_no_newline rawText
  refine ⟨rfl, ?_, ?_, ?_, ?_⟩
  · show extractEducation (normalizeText rawText) = []
    unfold extractEducation
    rw [extractSection_none _ _ hn]
  · show extractWorkExperience currentYear (normalizeText rawText) = []
    unfold extractWorkExperience
    rw [extractSection_none _ _ hn]
  · show extractSkills (normalizeText rawText) = []
    unfold extractSkills
    rw [extractSection_none _ _ hn]
  · show extractCertifications (normalizeText rawText) = []
    unfold extractCertifications
    rw [extractSection_none _ _ hn]

/-- C7: normalizeText does not preserve the newline between two lines; its
first replace already turns the newline into a space, so the input of one
letter, a newline and another letter normalizes to the two letters joined
by a space rather than by a newline. -/
theorem normalizeText_newline_becomes_space :
    normalizeText "a\nb" = "a b" ∧ normalizeText "a\nb" ≠ "a\nb" := by
  constructor
  · decide
  · decide

/-- C9: parseResume fails exactly on inputs that are neither a string nor a
non-null object, and on string and object inputs it returns the raw-text
and structured profiles respectively, without any other error path. -/
theorem parseResume_error_iff (currentYear : ℤ) (input : JSInput) :
    ((∃ e, parseResume currentYear input = Except.error e) ↔
        (∀ s, input ≠ JSInput.jstr s) ∧ (∀ d, input ≠ JSInput.jobj d))
    ∧ (∀ s, input = JSInput.jstr s →
        parseResume currentYear input = Except.ok (parseRawResume currentYear s))
    ∧ (∀ d, input = JSInput.jobj d →
        parseResume currentYear input = Except.ok (parseStructuredResume currentYear d)) := by
  cases input <;> simp [parseResume]

/-- C3: runR1 always returns a ScreeningResult (it is a total function of
this model); whenever the parse stage fails, the result is the sentinel:
screeningResult fail, confidence 0, the default Unknown profile, and
errorMessages holding the stage-annotated message, which contains the
original error message as a substring. -/
theorem runR1_error_result (currentYear : ℤ) (input : JSInput) (r : JobRequirements)
    (msg : String) (h : parseResume currentYear input = Except.error msg) :
    R1Agent.runR1 currentYear input r
        = R1Agent.createErrorResult ("Failed to parse resume: " ++ msg)
    ∧ (R1Agent.runR1 currentYear input r).screeningResult = "fail"
    ∧ (R1Agent.runR1 currentYear input r).confidenceScore = 0
    ∧ (R1Agent.runR1 currentYear input r).candidateProfile
        = { fullName := "Unknown", email := "", phone := "",
            education := [], workExperience := [], skills := [], certifications := [] }
    ∧ (R1Agent.runR1 currentYear input r).errorMessages = ["Failed to parse resume: " ++ msg]
    ∧ ∃ m ∈ (R1Agent.runR1 currentYear input r).errorMessages, strContains m msg = true := by
  have hstage : R1Agent.parseResumeStage currentYear input
      = Except.error ("Failed to parse resume: " ++ msg) := by
    unfold R1Agent.parseResumeStage
    rw [h]
  have hrun : R1Agent.runR1 currentYear input r
      = R1Agent.createErrorResult ("Failed to parse resume: " ++ msg) := by
    unfold R1Agent.runR1
    rw [hstage]
  refine ⟨hrun, by rw [hrun]; rfl, by rw [hrun]; rfl, by rw [hrun]; rfl, by rw [hrun]; rfl, ?_⟩
  rw [hrun]
  exact ⟨"Failed to parse resume: " ++ msg, List.mem_cons_self _ _,
    strContains_append_right "Failed to parse resume: " msg⟩

/-- C3 witness: the null input fails the parse stage with the invalid-format
message, and runR1 returns the sentinel result carrying it. -/
theorem runR1_error_result_witness :
    R1Agent.runR1 2024 JSInput.jnull basicReqs
        = R1Agent.createErrorResult ("Failed to parse resume: " ++ "Invalid input format. Expected string or object.")
    ∧ (R1Agent.runR1 2024 JSInput.jnull basicReqs).screeningResult = "fail"
    ∧ (R1Agent.runR1 2024 JSInput.jnull basicReqs).confidenceScore = 0
    ∧ (R1Agent.runR1 2024 JSInput.jnull basicReqs).candidateProfile
        = { fullName := "Unknown", email := "", phone := "",
            education := [], workExperience := [], skills := [], certifications := [] }
    ∧ (R1Agent.runR1 2024 JSInput.jnull basicReqs).errorMessages
        = ["Failed to parse resume: " ++ "Invalid input format. Expected string or object."]
    ∧ ∃ m ∈ (R1Agent.runR1 2024 JSInput.jnull basicReqs).errorMessages,
        strContains m "Invalid input format. Expected string or object." = true :=
  runR1_error_result 2024 JSInput.jnull basicReqs "Invalid input format. Expected string or object." rfl
